import Mathlib

/-!
Shallow embedding of the blood-bank inventory core of `src/main.py`
(class `BloodManagementSystem`).  The Python object holds a dict
`blood_inventory` (blood-type string to integer unit count, insertion
ordered) and a list `donation_records` of record dicts.  We model the
dict as an insertion-ordered association list and the record dicts as a
structure; each mutating method becomes a function from the store state
to a result triple (success flag, message, new state), mirroring the
Python `(bool, str)` return plus the mutation of `self`.  The wall-clock
timestamp produced by `datetime.now()` is passed in as an explicit
string argument.
-/

namespace BloodBank

/-- Kind tag of a transaction record: the Python code stores the string
"donation" or "usage" under the "type" key. -/
inductive RecordKind where
  | donation
  | usage
deriving DecidableEq, Repr

/-- One transaction record, as built in `add_blood` / `remove_blood`.
`name` holds the value stored under "donor_name" (for a donation) or
"recipient_name" (for a usage). -/
structure TxRecord where
  blood_type : String
  units : Int
  name : String
  timestamp : String
  kind : RecordKind
deriving DecidableEq, Repr

/-- The in-memory state of `BloodManagementSystem`: the inventory dict
(modelled as an insertion-ordered association list) and the append-only
record list. -/
structure Store where
  blood_inventory : List (String × Int)
  donation_records : List TxRecord
deriving DecidableEq, Repr

/-- `self.blood_inventory = {}`, `self.donation_records = []`. -/
def emptyStore : Store := ⟨[], []⟩

/-- Python dict read `d[k]` / membership `k in d`: first (and, for a
real dict, only) binding of the key. -/
def lookupInv : List (String × Int) → String → Option Int
  | [], _ => none
  | (k, v) :: rest, key => if k = key then some v else lookupInv rest key

/-- Python dict write `d[k] = v`: overwrite the binding in place when the
key is present, otherwise append a new binding at the end (insertion
order, as a Python dict does). -/
def setInv : List (String × Int) → String → Int → List (String × Int)
  | [], key, val => [(key, val)]
  | (k, v) :: rest, key, val =>
    if k = key then (key, val) :: rest else (k, v) :: setInv rest key val

/-- Python `del d[k]`: drop the binding of the key. -/
def delInv : List (String × Int) → String → List (String × Int)
  | [], _ => []
  | (k, v) :: rest, key => if k = key then rest else (k, v) :: delInv rest key

/-- The fixed enumeration checked by `add_blood`:
`["A+", "A-", "B+", "B-", "AB+", "AB-", "O+", "O-"]`. -/
def validTypes : List String := ["A+", "A-", "B+", "B-", "AB+", "AB-", "O+", "O-"]

/-- Result of one operation: the `(bool, message)` pair Python returns,
plus the (possibly mutated) store state. -/
structure OpResult where
  success : Bool
  message : String
  state : Store
deriving DecidableEq, Repr

/-- `BloodManagementSystem.add_blood(blood_type, units, donor_name)`,
with the `datetime.now()` timestamp passed in as `now`. -/
def add_blood (s : Store) (blood_type : String) (units : Int)
    (donor_name : String) (now : String) : OpResult :=
  if blood_type ∉ validTypes then
    ⟨false, "Invalid blood type", s⟩
  else if units ≤ 0 then
    ⟨false, "Units must be greater than 0", s⟩
  else
    let inv0 :=
      if lookupInv s.blood_inventory blood_type = none then
        setInv s.blood_inventory blood_type 0
      else s.blood_inventory
    let inv1 := setInv inv0 blood_type ((lookupInv inv0 blood_type).getD 0 + units)
    let record : TxRecord := ⟨blood_type, units, donor_name, now, RecordKind.donation⟩
    ⟨true, "Successfully added " ++ toString units ++ " units of " ++ blood_type,
      ⟨inv1, s.donation_records ++ [record]⟩⟩

/-- `BloodManagementSystem.remove_blood(blood_type, units, recipient_name)`,
with the `datetime.now()` timestamp passed in as `now`. -/
def remove_blood (s : Store) (blood_type : String) (units : Int)
    (recipient_name : String) (now : String) : OpResult :=
  match lookupInv s.blood_inventory blood_type with
  | none => ⟨false, "Blood type " ++ blood_type ++ " not available", s⟩
  | some cur =>
    if units ≤ 0 then
      ⟨false, "Units must be greater than 0", s⟩
    else if cur < units then
      ⟨false, "Insufficient stock. Available: " ++ toString cur ++ " units", s⟩
    else
      let record : TxRecord := ⟨blood_type, units, recipient_name, now, RecordKind.usage⟩
      ⟨true, "Successfully removed " ++ toString units ++ " units of " ++ blood_type,
        ⟨setInv s.blood_inventory blood_type (cur - units),
          s.donation_records ++ [record]⟩⟩

/-- `BloodManagementSystem.delete_blood_type(blood_type)`. -/
def delete_blood_type (s : Store) (blood_type : String) : OpResult :=
  match lookupInv s.blood_inventory blood_type with
  | none => ⟨false, "Blood type " ++ blood_type ++ " not found", s⟩
  | some units =>
    ⟨true, "Deleted " ++ blood_type ++ " (" ++ toString units ++ " units removed)",
      ⟨delInv s.blood_inventory blood_type, s.donation_records⟩⟩

/-- `BloodManagementSystem.get_inventory()`. -/
def get_inventory (s : Store) : List (String × Int) := s.blood_inventory

/-- `BloodManagementSystem.get_records()`. -/
def get_records (s : Store) : List TxRecord := s.donation_records

/-- One call made by a caller of the store: the three mutating methods,
with the timestamp argument made explicit. -/
inductive Op where
  | addOp (t : String) (u : Int) (n : String) (ts : String)
  | removeOp (t : String) (u : Int) (n : String) (ts : String)
  | deleteOp (t : String)

/-- State reached after one operation (the result message is dropped). -/
def applyOp (s : Store) : Op → Store
  | .addOp t u n ts => (add_blood s t u n ts).state
  | .removeOp t u n ts => (remove_blood s t u n ts).state
  | .deleteOp t => (delete_blood_type s t).state

/-- State reached after a sequence of operations. -/
def runOps (s : Store) : List Op → Store
  | [] => s
  | o :: rest => runOps (applyOp s o) rest

/-- Every unit count stored in the inventory mapping is non-negative. -/
def invNonneg (s : Store) : Prop := ∀ p ∈ s.blood_inventory, 0 ≤ p.2

/-! ### Persistence layer

`_save_data` serializes `{"blood_inventory": ..., "donation_records": ...}`
with `json.dump`; `_load_data` reads the file back with `json.load` and
`data.get(key, default)`.  We model JSON documents as a small inductive
type (the backing file only ever holds strings and integers as leaves)
and the possible states of the backing file explicitly. -/

/-- A parsed JSON document. -/
inductive Json where
  | null
  | bool (b : Bool)
  | num (n : Int)
  | str (s : String)
  | arr (elems : List Json)
  | obj (fields : List (String × Json))

/-- Python `dict.get(key, default)` on a parsed JSON object. -/
def jsonGet : List (String × Json) → String → Json → Json
  | [], _, dflt => dflt
  | (k, v) :: rest, key, dflt => if k = key then v else jsonGet rest key dflt

/-- The backing file as `_load_data` can encounter it: absent
(`os.path.exists` false), present but failing to open or to parse
(`IOError` / `json.JSONDecodeError`, both caught), or parsed to the
JSON value `doc`. -/
inductive FileState where
  | missing
  | unreadable
  | contents (doc : Json)

/-- `BloodManagementSystem._load_data`.  A missing file leaves the
empty dict and list from `__init__`; an unreadable or unparseable file
is caught and also yields the empty dict and list; a file parsed to a
JSON object is read with `data.get` and its two fields returned; a file
parsed to any other JSON value makes `data.get` raise AttributeError,
which the `except (json.JSONDecodeError, IOError)` clause does not
catch, so the error propagates. -/
def loadData : FileState → Except String (Json × Json)
  | .missing => .ok (.obj [], .arr [])
  | .unreadable => .ok (.obj [], .arr [])
  | .contents (.obj fields) =>
    .ok (jsonGet fields "blood_inventory" (.obj []),
         jsonGet fields "donation_records" (.arr []))
  | .contents _ => .error "AttributeError"

/-- The string stored under the "type" key of a record dict. -/
def kindString : RecordKind → String
  | .donation => "donation"
  | .usage => "usage"

/-- The key under which the counterparty name is stored: "donor_name"
for a donation, "recipient_name" for a usage. -/
def nameKey : RecordKind → String
  | .donation => "donor_name"
  | .usage => "recipient_name"

/-- The record dict as built by `add_blood` / `remove_blood` and
serialized verbatim by `json.dump`. -/
def recordToJson (r : TxRecord) : Json :=
  .obj [("blood_type", .str r.blood_type), ("units", .num r.units),
        (nameKey r.kind, .str r.name), ("timestamp", .str r.timestamp),
        ("type", .str (kindString r.kind))]

/-- The inventory dict as serialized by `json.dump`. -/
def invToJson (inv : List (String × Int)) : Json :=
  .obj (inv.map fun p => (p.1, Json.num p.2))

/-- `BloodManagementSystem._save_data`: the whole document written to
the backing file. -/
def saveData (s : Store) : Json :=
  .obj [("blood_inventory", invToJson s.blood_inventory),
        ("donation_records", .arr (s.donation_records.map recordToJson))]

/-- Typed reading of a loaded inventory object: each field must hold an
integer.  This is the typed-embedding view of the dict the Python code
keeps in memory after a load. -/
def decodeEntries : List (String × Json) → Option (List (String × Int))
  | [] => some []
  | (k, Json.num n) :: rest => (decodeEntries rest).map fun l => (k, n) :: l
  | _ => none

/-- Typed reading of the loaded "blood_inventory" value. -/
def decodeInv : Json → Option (List (String × Int))
  | .obj fields => decodeEntries fields
  | _ => none

/-- Typed reading of one loaded record dict. -/
def recordOfJson : Json → Option TxRecord
  | .obj [("blood_type", .str bt), ("units", .num u), ("donor_name", .str nm),
      ("timestamp", .str ts), ("type", .str "donation")] =>
    some ⟨bt, u, nm, ts, .donation⟩
  | .obj [("blood_type", .str bt), ("units", .num u), ("recipient_name", .str nm),
      ("timestamp", .str ts), ("type", .str "usage")] =>
    some ⟨bt, u, nm, ts, .usage⟩
  | _ => none

/-- Typed reading of a list of loaded record dicts, in order. -/
def decodeRecords : List Json → Option (List TxRecord)
  | [] => some []
  | j :: rest =>
    match recordOfJson j, decodeRecords rest with
    | some r, some rs => some (r :: rs)
    | _, _ => none

/-- Typed reading of the loaded "donation_records" value. -/
def decodeRecs : Json → Option (List TxRecord)
  | .arr elems => decodeRecords elems
  | _ => none

/-- Python `str.strip()`: drop leading and trailing whitespace. -/
def pyStrip (s : String) : String :=
  ⟨((s.data.dropWhile Char.isWhitespace).reverse.dropWhile Char.isWhitespace).reverse⟩

/-- The name normalization the UI layer applies before calling the
core: `entry.get().strip() or "Anonymous"` — the stripped text, with
"Anonymous" substituted when stripping leaves it empty. -/
def uiName (raw : String) : String :=
  let stripped := pyStrip raw
  if stripped = "" then "Anonymous" else stripped

/-! ### Association-list lemmas -/

theorem lookupInv_setInv_self (l : List (String × Int)) (k : String) (v : Int) :
    lookupInv (setInv l k v) k = some v := by
  induction l with
  | nil => simp [setInv, lookupInv]
  | cons p rest ih =>
    obtain ⟨k0, v0⟩ := p
    by_cases h : k0 = k <;> simp [setInv, lookupInv, h, ih]

theorem lookupInv_setInv_ne (l : List (String × Int)) (k k' : String) (v : Int)
    (h : k' ≠ k) : lookupInv (setInv l k v) k' = lookupInv l k' := by
  induction l with
  | nil => simp [setInv, lookupInv, Ne.symm h]
  | cons p rest ih =>
    obtain ⟨k0, v0⟩ := p
    by_cases h0 : k0 = k
    · subst h0
      simp [setInv, lookupInv, Ne.symm h]
    · by_cases h1 : k0 = k' <;> simp [setInv, lookupInv, h0, h1, ih, h]

theorem setInv_setInv (l : List (String × Int)) (k : String) (a b : Int) :
    setInv (setInv l k a) k b = setInv l k b := by
  induction l with
  | nil => simp [setInv]
  | cons p rest ih =>
    obtain ⟨k0, v0⟩ := p
    by_cases h : k0 = k <;> simp [setInv, h, ih]

theorem lookupInv_delInv_ne (l : List (String × Int)) (k k' : String) (h : k' ≠ k) :
    lookupInv (delInv l k) k' = lookupInv l k' := by
  induction l with
  | nil => simp [delInv]
  | cons p rest ih =>
    obtain ⟨k0, v0⟩ := p
    by_cases h0 : k0 = k
    · subst h0
      simp [delInv, lookupInv, Ne.symm h]
    · by_cases h1 : k0 = k' <;> simp [delInv, lookupInv, h0, h1, ih, h]

theorem lookupInv_eq_none_of_not_mem (l : List (String × Int)) (k : String)
    (h : k ∉ l.map Prod.fst) : lookupInv l k = none := by
  induction l with
  | nil => simp [lookupInv]
  | cons p rest ih =>
    obtain ⟨k0, v0⟩ := p
    simp only [List.map_cons, List.mem_cons] at h
    push_neg at h
    simp [lookupInv, Ne.symm h.1, ih h.2]

theorem lookupInv_delInv_self (l : List (String × Int)) (k : String)
    (hnd : (l.map Prod.fst).Nodup) : lookupInv (delInv l k) k = none := by
  induction l with
  | nil => simp [delInv, lookupInv]
  | cons p rest ih =>
    obtain ⟨k0, v0⟩ := p
    simp only [List.map_cons, List.nodup_cons] at hnd
    by_cases h : k0 = k
    · subst h
      simpa [delInv] using lookupInv_eq_none_of_not_mem rest k0 hnd.1
    · simp [delInv, lookupInv, h, ih hnd.2]

theorem lookupInv_mem (l : List (String × Int)) (k : String) (v : Int)
    (h : lookupInv l k = some v) : (k, v) ∈ l := by
  induction l with
  | nil => simp [lookupInv] at h
  | cons p rest ih =>
    obtain ⟨k0, v0⟩ := p
    by_cases h0 : k0 = k
    · subst h0
      simp [lookupInv] at h
      simp [h]
    · simp [lookupInv, h0] at h
      simp [ih h]

theorem mem_setInv (l : List (String × Int)) (k : String) (v : Int)
    (q : String × Int) (h : q ∈ setInv l k v) : q = (k, v) ∨ q ∈ l := by
  induction l with
  | nil => simp [setInv] at h; simp [h]
  | cons p rest ih =>
    obtain ⟨k0, v0⟩ := p
    by_cases h0 : k0 = k
    · subst h0
      simp [setInv] at h
      rcases h with h | h <;> simp [h]
    · simp [setInv, h0] at h
      rcases h with h | h
      · simp [h]
      · rcases ih h with h1 | h1 <;> simp [h1]

theorem mem_delInv (l : List (String × Int)) (k : String)
    (q : String × Int) (h : q ∈ delInv l k) : q ∈ l := by
  induction l with
  | nil => simp [delInv] at h
  | cons p rest ih =>
    obtain ⟨k0, v0⟩ := p
    by_cases h0 : k0 = k
    · subst h0
      simp [delInv] at h
      simp [h]
    · simp [delInv, h0] at h
      rcases h with h | h
      · simp [h]
      · simp [ih h]

/-! ### Normal form of a successful `add_blood` -/

theorem add_blood_ok (s : Store) (t : String) (u : Int) (dn now : String)
    (ht : t ∈ validTypes) (hu : 0 < u) :
    add_blood s t u dn now =
      ⟨true, "Successfully added " ++ toString u ++ " units of " ++ t,
        ⟨setInv s.blood_inventory t ((lookupInv s.blood_inventory t).getD 0 + u),
          s.donation_records ++ [⟨t, u, dn, now, RecordKind.donation⟩]⟩⟩ := by
  unfold add_blood
  rw [if_neg (by simpa using ht), if_neg (by omega)]
  cases h : lookupInv s.blood_inventory t with
  | none => simp [h, lookupInv_setInv_self, setInv_setInv]
  | some c => simp [h]

/-! ### Normal forms of successful `remove_blood` and `delete_blood_type` -/

theorem remove_blood_ok (s : Store) (t : String) (u cur : Int) (rn now : String)
    (hcur : lookupInv s.blood_inventory t = some cur) (hu : 0 < u) (hle : u ≤ cur) :
    remove_blood s t u rn now =
      ⟨true, "Successfully removed " ++ toString u ++ " units of " ++ t,
        ⟨setInv s.blood_inventory t (cur - u),
          s.donation_records ++ [⟨t, u, rn, now, RecordKind.usage⟩]⟩⟩ := by
  unfold remove_blood
  simp only [hcur]
  rw [if_neg (by omega), if_neg (by omega)]

theorem delete_blood_type_ok (s : Store) (t : String) (cur : Int)
    (hcur : lookupInv s.blood_inventory t = some cur) :
    delete_blood_type s t =
      ⟨true, "Deleted " ++ t ++ " (" ++ toString cur ++ " units removed)",
        ⟨delInv s.blood_inventory t, s.donation_records⟩⟩ := by
  unfold delete_blood_type
  simp only [hcur]

/-- C1: for every blood type in the eight-value enumeration and every
positive unit count, `add_blood` followed by `remove_blood` of the same
units both succeed, the balance of that type (absent key read as zero)
returns to its pre-add value, and exactly two records are appended to
the log: first the Donation, then the Usage, each carrying that
blood type and unit count.  The hypothesis `hnn` is the data-model
invariant that the stored balance is non-negative. -/
theorem c1_add_then_remove_round_trip (s : Store) (t : String) (u : Int)
    (dn rn ts1 ts2 : String) (ht : t ∈ validTypes) (hu : 0 < u)
    (hnn : 0 ≤ (lookupInv s.blood_inventory t).getD 0) :
    (add_blood s t u dn ts1).success = true ∧
    (remove_blood (add_blood s t u dn ts1).state t u rn ts2).success = true ∧
    (lookupInv
        (remove_blood (add_blood s t u dn ts1).state t u rn ts2).state.blood_inventory
        t).getD 0 = (lookupInv s.blood_inventory t).getD 0 ∧
    (remove_blood (add_blood s t u dn ts1).state t u rn ts2).state.donation_records =
      s.donation_records ++
        [⟨t, u, dn, ts1, RecordKind.donation⟩, ⟨t, u, rn, ts2, RecordKind.usage⟩] := by
  rw [add_blood_ok s t u dn ts1 ht hu]
  have hl : lookupInv (setInv s.blood_inventory t
      ((lookupInv s.blood_inventory t).getD 0 + u)) t =
      some ((lookupInv s.blood_inventory t).getD 0 + u) :=
    lookupInv_setInv_self _ _ _
  rw [remove_blood_ok _ t u _ rn ts2 hl hu (by omega)]
  refine ⟨rfl, rfl, ?_, by simp⟩
  have hv : (lookupInv s.blood_inventory t).getD 0 + u - u =
      (lookupInv s.blood_inventory t).getD 0 := by omega
  simp [setInv_setInv, hv, lookupInv_setInv_self]

/-- C1 witness: concrete instantiation of the round trip at the store
holding two units of O-. -/
theorem c1_add_then_remove_round_trip_witness :
    (add_blood ⟨[("O-", 2)], []⟩ "O-" 5 "Alice" "t1").success = true ∧
    (remove_blood (add_blood ⟨[("O-", 2)], []⟩ "O-" 5 "Alice" "t1").state
      "O-" 5 "Carl" "t2").success = true ∧
    (lookupInv
        (remove_blood (add_blood ⟨[("O-", 2)], []⟩ "O-" 5 "Alice" "t1").state
          "O-" 5 "Carl" "t2").state.blood_inventory
        "O-").getD 0 = (lookupInv (Store.mk [("O-", 2)] []).blood_inventory "O-").getD 0 ∧
    (remove_blood (add_blood ⟨[("O-", 2)], []⟩ "O-" 5 "Alice" "t1").state
        "O-" 5 "Carl" "t2").state.donation_records =
      (Store.mk [("O-", 2)] []).donation_records ++
        [⟨"O-", 5, "Alice", "t1", RecordKind.donation⟩,
         ⟨"O-", 5, "Carl", "t2", RecordKind.usage⟩] :=
  c1_add_then_remove_round_trip ⟨[("O-", 2)], []⟩ "O-" 5 "Alice" "Carl" "t1" "t2"
    (by decide) (by decide) (by decide)

/-! ### The non-negativity invariant (C2) -/

theorem lookupInv_nonneg (l : List (String × Int)) (k : String) (v : Int)
    (hnn : ∀ p ∈ l, 0 ≤ p.2) (h : lookupInv l k = some v) : 0 ≤ v :=
  hnn (k, v) (lookupInv_mem l k v h)

theorem setInv_nonneg (l : List (String × Int)) (k : String) (v : Int)
    (hnn : ∀ p ∈ l, 0 ≤ p.2) (hv : 0 ≤ v) : ∀ p ∈ setInv l k v, 0 ≤ p.2 := by
  intro p hp
  rcases mem_setInv l k v p hp with h | h
  · simp [h, hv]
  · exact hnn p h

theorem invNonneg_add_blood (s : Store) (t : String) (u : Int) (n ts : String)
    (h : invNonneg s) : invNonneg (add_blood s t u n ts).state := by
  by_cases ht : t ∈ validTypes
  · by_cases hu : 0 < u
    · rw [add_blood_ok s t u n ts ht hu]
      have hg : 0 ≤ (lookupInv s.blood_inventory t).getD 0 := by
        cases hl : lookupInv s.blood_inventory t with
        | none => simp
        | some v => simpa using lookupInv_nonneg s.blood_inventory t v h hl
      exact setInv_nonneg _ _ _ h (by omega)
    · unfold add_blood
      rw [if_neg (by simpa using ht), if_pos (by omega)]
      exact h
  · unfold add_blood
    rw [if_pos (by simpa using ht)]
    exact h

theorem invNonneg_remove_blood (s : Store) (t : String) (u : Int) (n ts : String)
    (h : invNonneg s) : invNonneg (remove_blood s t u n ts).state := by
  unfold remove_blood
  cases hl : lookupInv s.blood_inventory t with
  | none => exact h
  | some cur =>
    by_cases hu : u ≤ 0
    · simp only [if_pos hu]
      exact h
    · by_cases hlt : cur < u
      · simp only [if_neg hu, if_pos hlt]
        exact h
      · simp only [if_neg hu, if_neg hlt]
        exact setInv_nonneg _ _ _ h (by omega)

theorem invNonneg_delete_blood_type (s : Store) (t : String)
    (h : invNonneg s) : invNonneg (delete_blood_type s t).state := by
  unfold delete_blood_type
  cases hl : lookupInv s.blood_inventory t with
  | none => exact h
  | some cur =>
    intro p hp
    exact h p (mem_delInv _ _ _ hp)

theorem invNonneg_applyOp (s : Store) (o : Op) (h : invNonneg s) :
    invNonneg (applyOp s o) := by
  cases o with
  | addOp t u n ts => exact invNonneg_add_blood s t u n ts h
  | removeOp t u n ts => exact invNonneg_remove_blood s t u n ts h
  | deleteOp t => exact invNonneg_delete_blood_type s t h

theorem invNonneg_runOps (s : Store) (ops : List Op) (h : invNonneg s) :
    invNonneg (runOps s ops) := by
  induction ops generalizing s with
  | nil => exact h
  | cons o rest ih => exact ih (applyOp s o) (invNonneg_applyOp s o h)

/-- C2: in every store state reachable from the empty store by any
sequence of `add_blood`, `remove_blood` and `delete_blood_type` calls,
every unit count stored in the inventory mapping is non-negative. -/
theorem c2_reachable_inventory_nonneg (ops : List Op) :
    invNonneg (runOps emptyStore ops) :=
  invNonneg_runOps emptyStore ops (by intro p hp; simp [emptyStore] at hp)

/-! ### Distinguishing the failure messages of `remove_blood` -/

theorem units_msg_ne_unavailable_msg (t : String) :
    ("Units must be greater than 0" : String) ≠ "Blood type " ++ t ++ " not available" := by
  intro h
  have h2 := congrArg (fun s : String => s.data.head?) h
  simp at h2

theorem insufficient_msg_ne_unavailable_msg (t : String) (c : Int) :
    "Insufficient stock. Available: " ++ toString c ++ " units" ≠
      "Blood type " ++ t ++ " not available" := by
  intro h
  have h2 := congrArg (fun s : String => s.data.head?) h
  simp at h2

/-- C3: when the inventory entry of a type holds balance `B` and the
requested units `N` satisfy `0 < N` and `B < N`, `remove_blood` fails
with the InsufficientStock message reporting exactly `B`, and the whole
store state (inventory and records) is unchanged. -/
theorem c3_insufficient_stock_reports_balance (s : Store) (t : String) (B N : Int)
    (n ts : String) (hB : lookupInv s.blood_inventory t = some B)
    (hN : 0 < N) (hBN : B < N) :
    remove_blood s t N n ts =
      ⟨false, "Insufficient stock. Available: " ++ toString B ++ " units", s⟩ := by
  unfold remove_blood
  simp only [hB]
  rw [if_neg (by omega), if_pos hBN]

/-- C3 witness: removing 10 units when 8 are available fails and the
message reports the balance 8. -/
theorem c3_insufficient_stock_reports_balance_witness :
    remove_blood ⟨[("O-", 8)], []⟩ "O-" 10 "Carl" "ts" =
      ⟨false, "Insufficient stock. Available: " ++ toString (8 : Int) ++ " units",
        ⟨[("O-", 8)], []⟩⟩ :=
  c3_insufficient_stock_reports_balance ⟨[("O-", 8)], []⟩ "O-" 8 10 "Carl" "ts"
    rfl (by decide) (by decide)

/-- C5: `remove_blood` fails with the UnknownBloodType message exactly
when the type has no inventory entry; a type that was added and then
fully depleted keeps its entry at 0 in `get_inventory` and a subsequent
`remove_blood` is not reported as unknown. -/
theorem c5_unknown_iff_no_entry (s : Store) (t : String) (u u2 : Int)
    (dn rn ts1 ts2 ts3 : String) (hv : t ∈ validTypes) (hu : 0 < u)
    (habs : lookupInv s.blood_inventory t = none) :
    (∀ (s' : Store) (u' : Int) (n now : String),
      ((remove_blood s' t u' n now).success = false ∧
        (remove_blood s' t u' n now).message = "Blood type " ++ t ++ " not available") ↔
      lookupInv s'.blood_inventory t = none) ∧
    lookupInv
      (get_inventory (remove_blood (add_blood s t u dn ts1).state t u rn ts2).state)
      t = some 0 ∧
    (remove_blood (remove_blood (add_blood s t u dn ts1).state t u rn ts2).state
        t u2 rn ts3).message ≠ "Blood type " ++ t ++ " not available" := by
  have hs2 : (remove_blood (add_blood s t u dn ts1).state t u rn ts2).state =
      ⟨setInv s.blood_inventory t 0,
        s.donation_records ++
          [⟨t, u, dn, ts1, RecordKind.donation⟩, ⟨t, u, rn, ts2, RecordKind.usage⟩]⟩ := by
    rw [add_blood_ok s t u dn ts1 hv hu]
    have hg : (lookupInv s.blood_inventory t).getD 0 = 0 := by rw [habs]; rfl
    rw [hg]
    have hl : lookupInv (setInv s.blood_inventory t (0 + u)) t = some (0 + u) :=
      lookupInv_setInv_self _ _ _
    rw [remove_blood_ok _ t u (0 + u) rn ts2 hl hu (by omega)]
    simp [setInv_setInv]
  refine ⟨?_, ?_, ?_⟩
  · intro s' u' n now
    constructor
    · rintro ⟨hsucc, hmsg⟩
      cases hl : lookupInv s'.blood_inventory t with
      | none => rfl
      | some c =>
        exfalso
        unfold remove_blood at hsucc hmsg
        simp only [hl] at hsucc hmsg
        by_cases hu' : u' ≤ 0
        · rw [if_pos hu'] at hmsg
          exact units_msg_ne_unavailable_msg t hmsg
        · by_cases hlt : c < u'
          · rw [if_neg hu', if_pos hlt] at hmsg
            exact insufficient_msg_ne_unavailable_msg t c hmsg
          · rw [if_neg hu', if_neg hlt] at hsucc
            simp at hsucc
    · intro habs'
      unfold remove_blood
      simp [habs']
  · rw [hs2]
    simpa [get_inventory] using lookupInv_setInv_self s.blood_inventory t 0
  · rw [hs2]
    have hl0 : lookupInv (setInv s.blood_inventory t 0) t = some 0 :=
      lookupInv_setInv_self _ _ _
    unfold remove_blood
    simp only [hl0]
    by_cases hu2 : u2 ≤ 0
    · rw [if_pos hu2]
      exact units_msg_ne_unavailable_msg t
    · rw [if_neg hu2, if_pos (by omega)]
      exact insufficient_msg_ne_unavailable_msg t 0

/-- C5 witness: on the empty store, removing A+ reports it unavailable;
after adding one unit of A+ and removing it again, the A+ entry remains
with value 0, and another removal of A+ is not reported as unknown. -/
theorem c5_unknown_iff_no_entry_witness :
    ((remove_blood emptyStore "A+" 1 "n" "ts").success = false ∧
      (remove_blood emptyStore "A+" 1 "n" "ts").message =
        "Blood type " ++ "A+" ++ " not available") ∧
    lookupInv
      (get_inventory
        (remove_blood (add_blood emptyStore "A+" 1 "d" "t1").state "A+" 1 "r" "t2").state)
      "A+" = some 0 ∧
    (remove_blood
        (remove_blood (add_blood emptyStore "A+" 1 "d" "t1").state "A+" 1 "r" "t2").state
        "A+" 1 "r" "t3").message ≠ "Blood type " ++ "A+" ++ " not available" := by
  have h := c5_unknown_iff_no_entry emptyStore "A+" 1 1 "d" "r" "t1" "t2" "t3"
    (by decide) (by decide) rfl
  exact ⟨(h.1 emptyStore 1 "n" "ts").mpr rfl, h.2.1, h.2.2⟩

/-- C6: `add_blood` fails exactly when the type is outside the
eight-value enumeration or the units are non-positive; the two failure
cases return the InvalidBloodType and InvalidUnits messages with the
store unchanged (no record appended), and a success returns the
confirmation message carrying the quantity and the type. -/
theorem c6_add_blood_validation (s : Store) (t : String) (u : Int) (dn ts : String) :
    ((add_blood s t u dn ts).success = false ↔ (t ∉ validTypes ∨ u ≤ 0)) ∧
    (t ∉ validTypes → add_blood s t u dn ts = ⟨false, "Invalid blood type", s⟩) ∧
    (t ∈ validTypes → u ≤ 0 →
      add_blood s t u dn ts = ⟨false, "Units must be greater than 0", s⟩) ∧
    ((add_blood s t u dn ts).success = true →
      (add_blood s t u dn ts).message =
        "Successfully added " ++ toString u ++ " units of " ++ t) := by
  by_cases ht : t ∈ validTypes
  · by_cases hu : u ≤ 0
    · have hres : add_blood s t u dn ts = ⟨false, "Units must be greater than 0", s⟩ := by
        unfold add_blood
        rw [if_neg (by simpa using ht), if_pos hu]
      rw [hres]
      simp [ht, hu]
    · rw [add_blood_ok s t u dn ts ht (by omega)]
      simp [ht, hu]
  · have hres : add_blood s t u dn ts = ⟨false, "Invalid blood type", s⟩ := by
      unfold add_blood
      rw [if_pos (by simpa using ht)]
    rw [hres]
    simp [ht]

/-- C6 witness: an unknown type fails, zero units fail with the units
message and no state change, and a valid addition reports quantity and
type in its message. -/
theorem c6_add_blood_validation_witness :
    (add_blood emptyStore "Z+" 5 "d" "ts").success = false ∧
    add_blood emptyStore "A+" 0 "d" "ts" =
      ⟨false, "Units must be greater than 0", emptyStore⟩ ∧
    (add_blood emptyStore "A+" 5 "d" "ts").message =
      "Successfully added " ++ toString (5 : Int) ++ " units of " ++ "A+" := by
  have h1 := c6_add_blood_validation emptyStore "Z+" 5 "d" "ts"
  have h2 := c6_add_blood_validation emptyStore "A+" 0 "d" "ts"
  have h3 := c6_add_blood_validation emptyStore "A+" 5 "d" "ts"
  exact ⟨h1.1.mpr (Or.inl (by decide)), h2.2.2.1 (by decide) (by decide),
    h3.2.2.2 (by decide)⟩

/-- C7: deleting a present type succeeds, removes exactly that key from
the inventory (other keys unchanged) and leaves the record log
untouched; deleting an absent type fails with the UnknownBloodType
message and changes nothing.  The hypothesis `hnd` states that the
inventory, being a model of a Python dict, binds each key once. -/
theorem c7_delete_blood_type_frame (s : Store) (t : String)
    (hnd : (s.blood_inventory.map Prod.fst).Nodup) :
    (∀ v, lookupInv s.blood_inventory t = some v →
      delete_blood_type s t =
        ⟨true, "Deleted " ++ t ++ " (" ++ toString v ++ " units removed)",
          ⟨delInv s.blood_inventory t, s.donation_records⟩⟩ ∧
      lookupInv (get_inventory (delete_blood_type s t).state) t = none ∧
      (∀ k, k ≠ t →
        lookupInv (get_inventory (delete_blood_type s t).state) k =
          lookupInv (get_inventory s) k) ∧
      get_records (delete_blood_type s t).state = get_records s) ∧
    (lookupInv s.blood_inventory t = none →
      delete_blood_type s t = ⟨false, "Blood type " ++ t ++ " not found", s⟩) := by
  constructor
  · intro v hv
    rw [delete_blood_type_ok s t v hv]
    refine ⟨rfl, ?_, ?_, rfl⟩
    · simpa [get_inventory] using lookupInv_delInv_self s.blood_inventory t hnd
    · intro k hk
      simpa [get_inventory] using lookupInv_delInv_ne s.blood_inventory t k hk
  · intro hv
    unfold delete_blood_type
    simp only [hv]

/-- C7 witness: deleting A+ from a two-entry store removes only A+ and
keeps the records; deleting the absent O- fails. -/
theorem c7_delete_blood_type_frame_witness :
    delete_blood_type ⟨[("A+", 3), ("B+", 4)], []⟩ "A+" =
      ⟨true, "Deleted " ++ "A+" ++ " (" ++ toString (3 : Int) ++ " units removed)",
        ⟨delInv [("A+", 3), ("B+", 4)] "A+", []⟩⟩ ∧
    lookupInv
      (get_inventory (delete_blood_type ⟨[("A+", 3), ("B+", 4)], []⟩ "A+").state)
      "A+" = none ∧
    lookupInv
      (get_inventory (delete_blood_type ⟨[("A+", 3), ("B+", 4)], []⟩ "A+").state)
      "B+" = lookupInv (get_inventory ⟨[("A+", 3), ("B+", 4)], []⟩) "B+" ∧
    delete_blood_type ⟨[("A+", 3), ("B+", 4)], []⟩ "O-" =
      ⟨false, "Blood type " ++ "O-" ++ " not found", ⟨[("A+", 3), ("B+", 4)], []⟩⟩ := by
  have h := c7_delete_blood_type_frame ⟨[("A+", 3), ("B+", 4)], []⟩ "A+" (by decide)
  have h2 := c7_delete_blood_type_frame ⟨[("A+", 3), ("B+", 4)], []⟩ "O-" (by decide)
  obtain ⟨hd, hnone, hframe, -⟩ := h.1 3 rfl
  exact ⟨hd, hnone, hframe "B+" (by decide), h2.2 rfl⟩

/-- C10: `remove_blood` and `delete_blood_type` validate the type only
by membership in the current inventory mapping: for any key present in
the mapping, whatever the string, `remove_blood` succeeds when the units
are positive and within the balance, and `delete_blood_type` succeeds
unconditionally, whatever the stored balance. -/
theorem c10_membership_only_validation (s : Store) (t : String) (u cur : Int)
    (n ts : String) (hcur : lookupInv s.blood_inventory t = some cur) :
    (0 < u → u ≤ cur → (remove_blood s t u n ts).success = true) ∧
    (delete_blood_type s t).success = true := by
  refine ⟨fun hu hle => ?_, ?_⟩
  · rw [remove_blood_ok s t u cur n ts hcur hu hle]
  · rw [delete_blood_type_ok s t cur hcur]

/-- C10 witness: the key XX is outside the eight-value enumeration, yet
with an inventory entry XX both operations succeed — deletion also with
the stored balance 0. -/
theorem c10_membership_only_validation_witness :
    ("XX" ∉ validTypes) ∧
    (remove_blood ⟨[("XX", 5)], []⟩ "XX" 2 "n" "ts").success = true ∧
    (delete_blood_type ⟨[("XX", 5)], []⟩ "XX").success = true ∧
    (delete_blood_type ⟨[("XX", 0)], []⟩ "XX").success = true := by
  have h := c10_membership_only_validation ⟨[("XX", 5)], []⟩ "XX" 2 5 "n" "ts" rfl
  have h0 := c10_membership_only_validation ⟨[("XX", 0)], []⟩ "XX" 1 0 "n" "ts" rfl
  exact ⟨by decide, h.1 (by decide) (by decide), h.2, h0.2⟩

/-! ### Persistence round trip and load behavior -/

theorem recordOfJson_recordToJson (r : TxRecord) :
    recordOfJson (recordToJson r) = some r := by
  obtain ⟨bt, u, nm, ts, k⟩ := r
  cases k <;> rfl

theorem decodeEntries_map (inv : List (String × Int)) :
    decodeEntries (inv.map fun p => (p.1, Json.num p.2)) = some inv := by
  induction inv with
  | nil => rfl
  | cons p rest ih =>
    obtain ⟨k, v⟩ := p
    simp [decodeEntries, ih]

theorem decodeRecords_map (recs : List TxRecord) :
    decodeRecords (recs.map recordToJson) = some recs := by
  induction recs with
  | nil => rfl
  | cons r rest ih =>
    simp [decodeRecords, recordOfJson_recordToJson, ih]

/-- C4 counterexample: a backing file containing the valid JSON
document `[]` — an array, not an object — parses without a
JSONDecodeError, then `data.get` raises AttributeError, which the
except clause does not catch, so an error propagates to the caller. -/
theorem c4_counterexample_array_file_raises :
    loadData (.contents (Json.arr [])) = .error "AttributeError" := rfl

/-- C4 (amended): a load of a missing backing file or of one that fails
to open or parse yields the empty inventory and empty record list with
no error; and a load of a file parsed to a JSON object also returns
without an error.  (A file whose contents parse to a non-object JSON
value instead propagates an AttributeError to the caller.) -/
theorem c4_load_missing_or_unparseable_is_empty :
    loadData .missing = .ok (.obj [], .arr []) ∧
    loadData .unreadable = .ok (.obj [], .arr []) ∧
    ∀ fields : List (String × Json), ∃ p, loadData (.contents (.obj fields)) = .ok p :=
  ⟨rfl, rfl, fun _ => ⟨_, rfl⟩⟩

/-- C8: saving any store state and loading the saved document back
reproduces the inventory mapping and the record sequence exactly, in
order: the load succeeds and returns the two serialized fields, and the
typed reading of those fields is the original mapping and sequence. -/
theorem c8_save_load_round_trip (s : Store) :
    loadData (.contents (saveData s)) =
      .ok (invToJson s.blood_inventory, .arr (s.donation_records.map recordToJson)) ∧
    decodeInv (invToJson s.blood_inventory) = some s.blood_inventory ∧
    decodeRecs (.arr (s.donation_records.map recordToJson)) = some s.donation_records := by
  refine ⟨rfl, ?_, ?_⟩
  · simpa [decodeInv, invToJson] using decodeEntries_map s.blood_inventory
  · simpa [decodeRecs] using decodeRecords_map s.donation_records

/-- C9 counterexample: `add_blood` called directly with the blank donor
name "" succeeds and stores the blank string in the record, not
"Anonymous". -/
theorem c9_counterexample_blank_name_stored_verbatim :
    (add_blood emptyStore "A+" 1 "" "ts").success = true ∧
    get_records (add_blood emptyStore "A+" 1 "" "ts").state =
      [⟨"A+", 1, "", "ts", RecordKind.donation⟩] ∧
    ("" : String) ≠ "Anonymous" := by
  refine ⟨by decide, by decide, by decide⟩

/-- C9 (amended): the core stores the supplied counterparty name
verbatim in the appended record; the defaulting of a blank name to
"Anonymous" is performed by the UI caller, which strips the input and
substitutes "Anonymous" before invoking the core, so an addition or
removal driven by a blank form input appends a record whose name field
is "Anonymous". -/
theorem c9_blank_name_defaults_via_ui (s : Store) (t : String) (u cur : Int)
    (raw ts : String) (hv : t ∈ validTypes) (hu : 0 < u)
    (hblank : pyStrip raw = "")
    (hcur : lookupInv s.blood_inventory t = some cur) (hle : u ≤ cur) :
    (get_records (add_blood s t u (uiName raw) ts).state).getLast? =
      some ⟨t, u, "Anonymous", ts, RecordKind.donation⟩ ∧
    (get_records (remove_blood s t u (uiName raw) ts).state).getLast? =
      some ⟨t, u, "Anonymous", ts, RecordKind.usage⟩ ∧
    ∀ nm, (get_records (add_blood s t u nm ts).state).getLast? =
      some ⟨t, u, nm, ts, RecordKind.donation⟩ := by
  have hn : uiName raw = "Anonymous" := by simp [uiName, hblank]
  refine ⟨?_, ?_, ?_⟩
  · rw [hn, add_blood_ok s t u "Anonymous" ts hv hu]
    simp [get_records]
  · rw [hn, remove_blood_ok s t u cur "Anonymous" ts hcur hu hle]
    simp [get_records]
  · intro nm
    rw [add_blood_ok s t u nm ts hv hu]
    simp [get_records]

/-- C9 (amended) witness: with five units of A+ on hand and a blank
form input, the UI-normalized add and remove both append a record named
"Anonymous", while a non-blank name is stored verbatim. -/
theorem c9_blank_name_defaults_via_ui_witness :
    (get_records (add_blood ⟨[("A+", 5)], []⟩ "A+" 1 (uiName "") "ts").state).getLast? =
      some ⟨"A+", 1, "Anonymous", "ts", RecordKind.donation⟩ ∧
    (get_records (remove_blood ⟨[("A+", 5)], []⟩ "A+" 1 (uiName "") "ts").state).getLast? =
      some ⟨"A+", 1, "Anonymous", "ts", RecordKind.usage⟩ ∧
    (get_records (add_blood ⟨[("A+", 5)], []⟩ "A+" 1 "Bob" "ts").state).getLast? =
      some ⟨"A+", 1, "Bob", "ts", RecordKind.donation⟩ := by
  have h := c9_blank_name_defaults_via_ui ⟨[("A+", 5)], []⟩ "A+" 1 5 "" "ts"
    (by decide) (by decide) (by decide) rfl (by decide)
  exact ⟨h.1, h.2.1, h.2.2 "Bob"⟩

end BloodBank
